import Mathlib

/-!
# Verification of the `bubbletea` SSH middleware (`tea.go`)

This file shallowly embeds the middleware in `bubbletea/tea.go` of the
`wish` repository and proves (or refutes) the frozen claims about it.

The embedding has three layers:

* pure helpers that are translated function-by-function from the source
  (`sshEnviron.Getenv`, `MakeRenderer`, `newDefaultProgramHandler`);
* a deterministic trace function `middlewareMain` for the straight-line
  body of the closure returned by `MiddlewareWithProgramHandler`
  (lines 70–103 of `tea.go`): it records, in program order, the externally
  visible operations the calling goroutine performs;
* a small-step machine (`stepFn` / `run`) for the same code including the
  resize-relay goroutine spawned at line 83, with an explicit scheduler
  (the `SchedAction` list), used for the concurrency claims.
-/

/-! ## termenv color profiles

`termenv.Profile` is an integer enumeration.  The numeric values are pinned
by the source itself: `profileNames = [4]string{"TrueColor", "ANSI256",
"ANSI", "Ascii"}` is indexed by the profile value, so `TrueColor = 0`,
`ANSI256 = 1`, `ANSI = 2`, `Ascii = 3`.  A numerically *larger* profile has
*fewer* colors. -/

inductive Profile where
  | trueColor
  | ansi256
  | ansi
  | ascii
deriving DecidableEq, Repr

/-- The integer value of a `termenv.Profile` constant. -/
def Profile.toNat : Profile → Nat
  | .trueColor => 0
  | .ansi256 => 1
  | .ansi => 2
  | .ascii => 3

/-- `var profileNames = [4]string{"TrueColor", "ANSI256", "ANSI", "Ascii"}`,
indexed by `Profile.toNat` (source line 109). -/
def profileNames : Profile → String
  | .trueColor => "TrueColor"
  | .ansi256 => "ANSI256"
  | .ansi => "ANSI"
  | .ascii => "Ascii"

/-- The *capability* order used by the spec: ascending
`Ascii < ANSI < ANSI256 < TrueColor` ("more colors" is larger).  This is the
reverse of the numeric order of `termenv.Profile`. -/
def capRank (p : Profile) : Nat := 3 - p.toNat

/-- `p` is strictly less capable than `q` (spec's ascending capability
order). -/
def capLt (p q : Profile) : Prop := capRank p < capRank q

instance : DecidablePred fun pq : Profile × Profile => capLt pq.1 pq.2 :=
  fun _ => Nat.decLt _ _

instance (p q : Profile) : Decidable (capLt p q) := Nat.decLt _ _

/-- Minimum in the spec's ascending capability order
(`Ascii < ANSI < ANSI256 < TrueColor`).  This definition follows the
*claim's* words ("the capability MakeRenderer configures equals min(C, F)
in the ascending capability order"), to be compared against the source's
behavior. -/
def capMin (p q : Profile) : Profile :=
  if capRank p ≤ capRank q then p else q

/-- Maximum in the spec's ascending capability order. -/
def capMax (p q : Profile) : Profile :=
  if capRank p ≤ capRank q then q else p

/-! ## `sshEnviron` (source lines 132–149) -/

/-- `type sshEnviron []string` (source line 132). -/
def sshEnviron := List String
deriving DecidableEq

/-- `func (e sshEnviron) Environ() []string { return e }`
(source lines 137–139). -/
def sshEnviron.Environ (e : sshEnviron) : List String := e

/-- `func (e sshEnviron) Getenv(k string) string` (source lines 142–149):
scan `e` in order; on the first element with prefix `k+"="` return the
rest of that element after the prefix; return `""` if none matches.
Strings are modelled at character granularity (`v[len(k)+1:]` becomes
dropping `k.length + 1` characters). -/
def sshEnviron.Getenv (e : sshEnviron) (k : String) : String :=
  match e with
  | [] => ""
  | v :: rest =>
      if (k ++ "=").isPrefixOf v then v.drop (k.length + 1)
      else sshEnviron.Getenv rest k

/-! ## `MakeRenderer` (source lines 113–124) -/

/-- The slice of a `lipgloss.Renderer` the middleware touches: its color
profile (read by `ColorProfile()`, written by `SetColorProfile`). -/
structure Renderer where
  profile : Profile
deriving DecidableEq, Repr

/-- Modelled from the spec: `newRenderer` (repository code outside the
given source file) constructs the session's renderer; per the spec the
negotiator "reads the client's advertised capability from the session's
environment/terminal metadata", so the renderer's color profile is the
client's advertised capability, taken here as a parameter. -/
def newRenderer (client : Profile) : Renderer := { profile := client }

/-- The context lookup at the head of `MakeRenderer` (source lines
114–117): `cp, ok := s.Context().Value(minColorProfileKey).(termenv.Profile);
if !ok { cp = termenv.Ascii }`.  `stored` is the value (if any) previously
put on the session context under `minColorProfileKey`. -/
def lookupMinProfile (stored : Option Profile) : Profile :=
  match stored with
  | some p => p
  | none => .ascii

/-- The warning line printed by `MakeRenderer` (source line 120):
`wish.Printf(s, "Warning: Client's terminal is %q, forcing %q\r\n", ...)`. -/
def rendererWarning (client cp : Profile) : String :=
  "Warning: Client's terminal is \"" ++ profileNames client ++
    "\", forcing \"" ++ profileNames cp ++ "\"\r\n"

/-- `func MakeRenderer(s ssh.Session) *lipgloss.Renderer` (source lines
113–124).  `stored` is the profile stored on the session context (if any),
`client` the client's advertised profile (see `newRenderer`).  Returns the
renderer together with the warning line written to the session, if any:
if `r.ColorProfile() > cp` (numerically—i.e. the client has *fewer*
colors than `cp`), the warning is printed and the renderer's profile is
forced to `cp`; otherwise the renderer is returned unchanged. -/
def MakeRenderer (stored : Option Profile) (client : Profile) :
    Renderer × Option String :=
  let cp := lookupMinProfile stored
  let r := newRenderer client
  if cp.toNat < r.profile.toNat then
    ({ profile := cp }, some (rendererWarning r.profile cp))
  else
    (r, none)

/-! ## Program handlers (source lines 26–35, 151–159)

`Handler` returns a `(tea.Model, []tea.ProgramOption)` pair where the model
may be `nil`; `ProgramHandler` returns a `*tea.Program` which may be `nil`.
The model, option and session types are opaque parameters of the embedding. -/

section Handlers

variable (Session Model ProgramOption : Type)

/-- The part of a `*tea.Program` visible to `newDefaultProgramHandler`:
`tea.NewProgram(m, opts...)` packages a model with its options. -/
structure Program where
  model : Model
  opts : List ProgramOption

/-- `tea.NewProgram` (external constructor). -/
def NewProgram (m : Model) (opts : List ProgramOption) :
    Program Model ProgramOption := ⟨m, opts⟩

/-- `type Handler func(ssh.Session) (tea.Model, []tea.ProgramOption)`
(source line 26); a `nil` model is `none`. -/
def Handler := Session → Option Model × List ProgramOption

/-- `type ProgramHandler func(ssh.Session) *tea.Program` (source line 35);
a `nil` program is `none`. -/
def ProgramHandler := Session → Option (Program Model ProgramOption)

variable {Session Model ProgramOption}

/-- `func newDefaultProgramHandler(bth Handler) ProgramHandler` (source
lines 151–159): run `bth`; if the model is `nil` return `nil`, otherwise
build the program with the handler's options followed by `makeOpts s`
(the session's input/output bindings, passed in as `mkOpts`). -/
def newDefaultProgramHandler (mkOpts : Session → List ProgramOption)
    (bth : Handler Session Model ProgramOption) :
    ProgramHandler Session Model ProgramOption :=
  fun s =>
    match bth s with
    | (none, _) => none
    | (some m, opts) => some (NewProgram _ _ m (opts ++ mkOpts s))

end Handlers

/-! ## The middleware body (source lines 68–105)

`MiddlewareWithProgramHandler(bth, p)` returns a middleware whose session
closure is (source lines 70–103):

```
s.Context().SetValue(minColorProfileKey, p)
_, windowChanges, ok := s.Pty()
if !ok { wish.Fatalln(s, "no active terminal, skipping"); return }
p := bth(s)
if p == nil { h(s); return }
ctx, cancel := context.WithCancel(s.Context())
go func() { for { select {
    case <-ctx.Done():       p.Quit(); return
    case w := <-windowChanges: p.Send(tea.WindowSizeMsg{...}) } } }()
if _, err := p.Run(); err != nil { log.Error("app exit with error", "error", err) }
p.Kill()
cancel()
h(s)
```

The observable operations are recorded as `Event`s.  The inputs that the
session and the external libraries decide (whether a PTY is allocated,
whether `bth` returns `nil`, what `p.Run` returns) are the `SessionParams`. -/

/-- `ssh.Window`: terminal dimensions carried by a window-change
notification. -/
structure Window where
  width : Int
  height : Int
deriving DecidableEq, Repr

/-- `tea.WindowSizeMsg`: the message the relay sends for a window change
(`tea.WindowSizeMsg{Width: w.Width, Height: w.Height}`, source line 90). -/
structure WindowSizeMsg where
  width : Int
  height : Int
deriving DecidableEq, Repr

/-- Errors returned by `p.Run()` are opaque; a string stands for a Go
`error` value. -/
def GoError := String
deriving DecidableEq, Repr

/-- The externally visible operations of one middleware session, in the
order they are performed.

* `setMinProfile p` — `s.Context().SetValue(minColorProfileKey, p)` (line 71)
* `fatalNoTerminal` — `wish.Fatalln(s, "no active terminal, skipping")`
  (line 74): writes the message and terminates the session
* `invokeFactory` — the call `bth(s)` (line 77)
* `spawnRelay` — the `go func() {...}()` statement (line 83)
* `runReturn err` — `p.Run()` returned, with error `err` (line 94)
* `logError e` — `log.Error("app exit with error", "error", err)` (line 95)
* `kill` — `p.Kill()` (line 100)
* `cancel` — `cancel()` (line 101)
* `invokeNext` — the call `h(s)` to the next handler (lines 79 and 102)
* `send m` — `p.Send(...)` by the relay goroutine (line 90)
* `quit` — `p.Quit()` by the relay goroutine (line 87)
* `arrive w` — a window-change notification became available on the
  `windowChanges` channel (an environment action, recorded so that claims
  can compare deliveries against arrivals)
* `feedClosed` — the session ended and the `windowChanges` channel was
  closed by the SSH library (environment action) -/
inductive Event where
  | setMinProfile (p : Profile)
  | fatalNoTerminal
  | invokeFactory
  | spawnRelay
  | runReturn (err : Option GoError)
  | logError (e : GoError)
  | kill
  | cancel
  | invokeNext
  | send (m : WindowSizeMsg)
  | quit
  | arrive (w : Window)
  | feedClosed
deriving DecidableEq, Repr

/-- The session-dependent inputs of one run of the middleware closure. -/
structure SessionParams where
  /-- The profile `p` passed to `MiddlewareWithProgramHandler`. -/
  minProfile : Profile
  /-- The `ok` result of `s.Pty()` (line 72): whether a PTY is allocated. -/
  ptyOk : Bool
  /-- Whether `bth(s)` (line 77) returns a non-`nil` program. -/
  progSome : Bool
  /-- The error result of `p.Run()` (line 94); `none` is a `nil` error. -/
  runErr : Option GoError
deriving DecidableEq, Repr

/-- The deterministic trace of the *calling goroutine* of the middleware
closure (source lines 70–103), in program order.  The relay goroutine's
own events interleave with this trace and are handled by the small-step
machine below. -/
def middlewareMain (P : SessionParams) : List Event :=
  Event.setMinProfile P.minProfile ::
    if !P.ptyOk then
      [Event.fatalNoTerminal]
    else
      Event.invokeFactory ::
        if !P.progSome then
          [Event.invokeNext]
        else
          Event.spawnRelay :: Event.runReturn P.runErr ::
            ((match P.runErr with
              | some e => [Event.logError e]
              | none => []) ++
              [Event.kill, Event.cancel, Event.invokeNext])

/-! ## Small-step machine for the session with its relay goroutine

The machine makes the interleaving of the calling goroutine, the relay
goroutine and the environment explicit.  A scheduler chooses a list of
`SchedAction`s; `stepFn` executes one action when it is enabled, producing the
events it emits.  Go's `select` picking either ready branch at random is
modelled by the scheduler being free to choose `relayRecv` or
`relayCancelBranch` whenever the corresponding branch is ready. -/

/-- Program counter of the calling goroutine through lines 70–103. -/
inductive MainPC where
  /-- about to execute `s.Context().SetValue(minColorProfileKey, p)` -/
  | start
  /-- about to check `ok` from `s.Pty()` -/
  | checkPty
  /-- about to call `bth(s)` -/
  | callFactory
  /-- about to check `p == nil` -/
  | checkProgram
  /-- about to execute `ctx, cancel := ...; go func() {...}()` -/
  | spawnRelay
  /-- blocked inside `p.Run()` -/
  | running
  /-- `p.Run()` returned; about to check its error -/
  | afterRun
  /-- about to call `p.Kill()` -/
  | killing
  /-- about to call `cancel()` -/
  | cancelling
  /-- about to call `h(s)` -/
  | next
  /-- the closure returned -/
  | done
deriving DecidableEq, Repr

/-- One configuration of the machine. -/
structure Config where
  main : MainPC
  /-- the `go func() {...}()` at line 83 has been executed -/
  relaySpawned : Bool
  /-- the relay goroutine has returned (only via its `ctx.Done()` branch) -/
  relayDone : Bool
  /-- `ctx.Done()` is closed: either `cancel()` (line 101) ran or the
  parent `s.Context()` was cancelled externally -/
  cancelled : Bool
  /-- window changes available on the `windowChanges` channel, oldest
  first -/
  chan : List Window
  /-- the `windowChanges` channel has been closed (session end) -/
  closed : Bool
deriving DecidableEq, Repr

/-- The initial configuration: the closure is entered, no relay, nothing
pending. -/
def initConfig : Config :=
  { main := .start, relaySpawned := false, relayDone := false,
    cancelled := false, chan := [], closed := false }

/-- Scheduler actions.

* `mainStep` — the calling goroutine executes its next statement;
* `relayRecv` — the relay's `select` takes the `windowChanges` branch
  (ready when a change is pending, or always once the channel is closed —
  receiving from a closed channel yields the zero `Window`);
* `relayCancelBranch` — the relay's `select` takes the `ctx.Done()`
  branch (ready once `cancelled`);
* `arrive w` — the SSH library makes a window change available;
* `closeFeed` — the session ends and the library closes `windowChanges`;
* `externalCancel` — the parent `s.Context()` is cancelled externally,
  which cancels the derived `ctx` (line 82). -/
inductive SchedAction where
  | mainStep
  | relayRecv
  | relayCancelBranch
  | arrive (w : Window)
  | closeFeed
  | externalCancel
deriving DecidableEq, Repr

/-- One step of the machine: execute `a` in configuration `c` under
session parameters `P`.  Returns `none` when `a` is not enabled, otherwise
the next configuration and the events emitted. -/
def stepFn (P : SessionParams) (c : Config) (a : SchedAction) :
    Option (Config × List Event) :=
  match a with
  | .mainStep =>
    match c.main with
    | .start =>
        some ({ c with main := .checkPty }, [.setMinProfile P.minProfile])
    | .checkPty =>
        if P.ptyOk then some ({ c with main := .callFactory }, [])
        else some ({ c with main := .done }, [.fatalNoTerminal])
    | .callFactory =>
        some ({ c with main := .checkProgram }, [.invokeFactory])
    | .checkProgram =>
        if P.progSome then some ({ c with main := .spawnRelay }, [])
        else some ({ c with main := .done }, [.invokeNext])
    | .spawnRelay =>
        some ({ c with main := .running, relaySpawned := true },
          [.spawnRelay])
    | .running =>
        some ({ c with main := .afterRun }, [.runReturn P.runErr])
    | .afterRun =>
        match P.runErr with
        | some e => some ({ c with main := .killing }, [.logError e])
        | none => some ({ c with main := .killing }, [])
    | .killing =>
        some ({ c with main := .cancelling }, [.kill])
    | .cancelling =>
        some ({ c with main := .next, cancelled := true }, [.cancel])
    | .next =>
        some ({ c with main := .done }, [.invokeNext])
    | .done => none
  | .relayRecv =>
    if c.relaySpawned && !c.relayDone then
      match c.chan with
      | w :: rest =>
          some ({ c with chan := rest },
            [.send { width := w.width, height := w.height }])
      | [] =>
          if c.closed then
            some (c, [.send { width := 0, height := 0 }])
          else none
    else none
  | .relayCancelBranch =>
    if c.relaySpawned && !c.relayDone && c.cancelled then
      some ({ c with relayDone := true }, [.quit])
    else none
  | .arrive w =>
    if c.closed then none
    else some ({ c with chan := c.chan ++ [w] }, [.arrive w])
  | .closeFeed =>
    if c.closed then none
    else some ({ c with closed := true }, [.feedClosed])
  | .externalCancel =>
    some ({ c with cancelled := true }, [])

/-- Run a list of scheduler actions from configuration `c`, collecting the
emitted events.  Fails (`none`) if some action is not enabled when its
turn comes. -/
def run (P : SessionParams) (c : Config) :
    List SchedAction → Option (Config × List Event)
  | [] => some (c, [])
  | a :: as =>
    match stepFn P c a with
    | none => none
    | some (c', evs) =>
      match run P c' as with
      | none => none
      | some (c'', evs') => some (c'', evs ++ evs')

/-- The windows delivered to the program (`p.Send`) in a trace, in order. -/
def sentWindows (tr : List Event) : List (Int × Int) :=
  tr.filterMap fun e =>
    match e with
    | .send m => some (m.width, m.height)
    | _ => none

/-- The windows that arrived on the `windowChanges` feed in a trace, in
order. -/
def arrivedWindows (tr : List Event) : List (Int × Int) :=
  tr.filterMap fun e =>
    match e with
    | .arrive w => some (w.width, w.height)
    | _ => none

/-- The pending window changes of a configuration, as `(width, height)`
pairs. -/
def chanPairs (c : Config) : List (Int × Int) :=
  c.chan.map fun w => (w.width, w.height)

/-- The events the calling goroutine still emits from line 94 on
(error check, `p.Kill()`, `cancel()`, `h(s)`). -/
def runTail (P : SessionParams) : List Event :=
  (match P.runErr with
    | some e => [Event.logError e]
    | none => []) ++ [Event.kill, Event.cancel, Event.invokeNext]

/-- Whether an event is emitted by the calling goroutine (as opposed to
the relay goroutine or the environment). -/
def isMainEvent : Event → Bool
  | .send _ => false
  | .quit => false
  | .arrive _ => false
  | .feedClosed => false
  | _ => true

/-- The events the calling goroutine still emits from a given program
counter on, used to relate the machine to `middlewareMain`. -/
def mainRest (P : SessionParams) : MainPC → List Event
  | .start => Event.setMinProfile P.minProfile ::
      (if !P.ptyOk then [Event.fatalNoTerminal] else
        Event.invokeFactory ::
          (if !P.progSome then [Event.invokeNext] else
            Event.spawnRelay :: Event.runReturn P.runErr :: runTail P))
  | .checkPty =>
      if !P.ptyOk then [Event.fatalNoTerminal] else
        Event.invokeFactory ::
          (if !P.progSome then [Event.invokeNext] else
            Event.spawnRelay :: Event.runReturn P.runErr :: runTail P)
  | .callFactory =>
      Event.invokeFactory ::
        (if !P.progSome then [Event.invokeNext] else
          Event.spawnRelay :: Event.runReturn P.runErr :: runTail P)
  | .checkProgram =>
      if !P.progSome then [Event.invokeNext] else
        Event.spawnRelay :: Event.runReturn P.runErr :: runTail P
  | .spawnRelay => Event.spawnRelay :: Event.runReturn P.runErr :: runTail P
  | .running => Event.runReturn P.runErr :: runTail P
  | .afterRun => runTail P
  | .killing => [Event.kill, Event.cancel, Event.invokeNext]
  | .cancelling => [Event.cancel, Event.invokeNext]
  | .next => [Event.invokeNext]
  | .done => []

/-- A session whose PTY is allocated, whose handler returns a program and
whose program exits without error: used for concrete schedules. -/
def demoParams : SessionParams :=
  { minProfile := .ascii, ptyOk := true, progSome := true, runErr := none }

/-- A configuration with the relay goroutine live and the context already
cancelled: the relay's `ctx.Done()` branch is ready. -/
def relayLiveConfig : Config :=
  { main := .running, relaySpawned := true, relayDone := false,
    cancelled := true, chan := [], closed := false }

/-- `relayLiveConfig` after the relay took its `ctx.Done()` branch. -/
def relayStoppedConfig : Config :=
  { main := .running, relaySpawned := true, relayDone := true,
    cancelled := true, chan := [], closed := false }

/-- A schedule on which a window change arrives after `p.Run()` has
returned but before `cancel()`, and the relay still delivers it. -/
def lateSendSchedule : List SchedAction :=
  [.mainStep, .mainStep, .mainStep, .mainStep, .mainStep, .mainStep,
    .arrive ⟨80, 24⟩, .relayRecv, .mainStep, .mainStep, .mainStep,
    .relayCancelBranch, .mainStep]

/-- The trace of `lateSendSchedule` from `initConfig` under `demoParams`:
the `send` at position 5 happens after the `runReturn` at position 3. -/
def lateSendTrace : List Event :=
  [Event.setMinProfile .ascii, Event.invokeFactory, Event.spawnRelay,
    Event.runReturn none, Event.arrive ⟨80, 24⟩, Event.send ⟨80, 24⟩,
    Event.kill, Event.cancel, Event.quit, Event.invokeNext]

/-- The final configuration of `lateSendSchedule`. -/
def lateSendFinal : Config :=
  { main := .done, relaySpawned := true, relayDone := true,
    cancelled := true, chan := [], closed := false }

/-- A schedule on which a window change arrives before the session ends
but the relay observes cancellation first, so the change is never
delivered. -/
def droppedEventSchedule : List SchedAction :=
  [.mainStep, .mainStep, .mainStep, .mainStep, .mainStep, .mainStep,
    .arrive ⟨81, 25⟩, .mainStep, .mainStep, .mainStep,
    .relayCancelBranch, .mainStep]

/-- The trace of `droppedEventSchedule` from `initConfig` under
`demoParams`: one arrival, no `send`. -/
def droppedEventTrace : List Event :=
  [Event.setMinProfile .ascii, Event.invokeFactory, Event.spawnRelay,
    Event.runReturn none, Event.arrive ⟨81, 25⟩, Event.kill,
    Event.cancel, Event.quit, Event.invokeNext]

/-- The final configuration of `droppedEventSchedule`: the arrived change
is still pending, undelivered. -/
def droppedEventFinal : Config :=
  { main := .done, relaySpawned := true, relayDone := true,
    cancelled := true, chan := [⟨81, 25⟩], closed := false }

/-- `lateSendFinal` after one more window change arrives (the relay is
already gone, so it stays pending). -/
def lateArriveFinal : Config :=
  { main := .done, relaySpawned := true, relayDone := true,
    cancelled := true, chan := [⟨9, 9⟩], closed := false }

/-! ## Helper lemmas -/

/-- Unfolding lemma: the middleware trace when a PTY is present and the
program handler returns a program. -/
theorem middlewareMain_run (P : SessionParams) (h1 : P.ptyOk = true)
    (h2 : P.progSome = true) :
    middlewareMain P =
      [Event.setMinProfile P.minProfile, Event.invokeFactory,
        Event.spawnRelay, Event.runReturn P.runErr] ++
        ((match P.runErr with
          | some e => [Event.logError e]
          | none => []) ++
          [Event.kill, Event.cancel, Event.invokeNext]) := by
  simp [middlewareMain, h1, h2]

/-! ## Claims -/

/-- C10: `sshEnviron.Getenv e k` returns the substring after `k=` of the
first element of `e` with prefix `k=`, and `""` when none matches; the
list `e` itself is returned unmodified by `Environ` (the receiver is never
mutated). -/
theorem getenv_first_prefix_match (e : sshEnviron) (k : String) :
    sshEnviron.Getenv e k =
      (match List.find? (fun v => (k ++ "=").isPrefixOf v) e with
        | some v => v.drop (k.length + 1)
        | none => "") ∧
    sshEnviron.Environ e = e := by
  refine ⟨?_, rfl⟩
  induction e with
  | nil => rfl
  | cons v rest ih =>
      by_cases h : ((k ++ "=").isPrefixOf v : Bool)
      · rw [sshEnviron.Getenv, List.find?_cons_of_pos _ h, if_pos h]
      · rw [sshEnviron.Getenv, List.find?_cons_of_neg _ (by simpa using h),
          if_neg (by simpa using h), ih]

/-- C2 counterexample: with client capability `Ascii` and declared profile
`TrueColor`, the claim says the configured capability is
`capMin Ascii TrueColor = Ascii` and (since `Ascii > TrueColor` is false in
the ascending capability order) that no diagnostic is emitted; the code
instead forces the renderer to `TrueColor` and prints the warning. -/
theorem makeRenderer_min_cex :
    capMin Profile.ascii Profile.trueColor = Profile.ascii ∧
    (MakeRenderer (some Profile.trueColor) Profile.ascii).1.profile =
      Profile.trueColor ∧
    Profile.trueColor ≠ Profile.ascii ∧
    ¬ capLt Profile.trueColor Profile.ascii ∧
    (MakeRenderer (some Profile.trueColor) Profile.ascii).2 =
      some (rendererWarning Profile.ascii Profile.trueColor) := by
  refine ⟨rfl, rfl, by decide, by decide, rfl⟩

/-- C2 (amended): for client capability `C` and declared profile `F`, the
capability `MakeRenderer` configures is `max(C, F)` in the ascending
capability order (the declared profile is *forced upward* when the client
is less capable), and the one-line diagnostic naming both values is
written iff `C < F`. -/
theorem makeRenderer_forces_max (C F : Profile) :
    (MakeRenderer (some F) C).1.profile = capMax C F ∧
    ((MakeRenderer (some F) C).2 = some (rendererWarning C F) ↔ capLt C F) ∧
    ((MakeRenderer (some F) C).2 = none ↔ ¬ capLt C F) := by
  cases C <;> cases F <;>
    exact ⟨rfl, by simp [MakeRenderer, lookupMinProfile, newRenderer,
      Profile.toNat, capLt, capRank], by simp [MakeRenderer, lookupMinProfile,
      newRenderer, Profile.toNat, capLt, capRank]⟩

/-- C7: when no capability was ever stored on the session context, the
lookup in `MakeRenderer` falls back to the most conservative tier
(`Ascii`), and `MakeRenderer` still returns a renderer (the client's
renderer, unchanged, with no diagnostic). -/
theorem makeRenderer_no_negotiation_defaults (C : Profile) :
    lookupMinProfile none = Profile.ascii ∧
    MakeRenderer none C = (newRenderer C, none) := by
  cases C <;> exact ⟨rfl, rfl⟩

/-- C1 counterexample: for a session without a PTY the middleware emits
the fatal "no active terminal" write and returns; the next handler is
executed zero times, not once, so the session does not fall through. -/
theorem noPty_next_handler_cex :
    middlewareMain
        { minProfile := .ascii, ptyOk := false, progSome := true,
          runErr := none } =
      [Event.setMinProfile .ascii, Event.fatalNoTerminal] ∧
    (middlewareMain
        { minProfile := .ascii, ptyOk := false, progSome := true,
          runErr := none }).count Event.invokeFactory = 0 ∧
    (middlewareMain
        { minProfile := .ascii, ptyOk := false, progSome := true,
          runErr := none }).count Event.invokeNext = 0 := by
  refine ⟨rfl, rfl, rfl⟩

/-- C1 (amended): for every session lacking an allocated PTY, no Worker is
constructed (the program handler is never invoked, no program is run), and
the middleware writes the fatal "no active terminal, skipping" diagnostic
and returns **without** executing the next handler: the session is
terminated rather than falling through. -/
theorem noPty_fatal_no_fallthrough (P : SessionParams)
    (h : P.ptyOk = false) :
    middlewareMain P =
      [Event.setMinProfile P.minProfile, Event.fatalNoTerminal] ∧
    Event.invokeFactory ∉ middlewareMain P ∧
    Event.invokeNext ∉ middlewareMain P := by
  have hm : middlewareMain P =
      [Event.setMinProfile P.minProfile, Event.fatalNoTerminal] := by
    simp [middlewareMain, h]
  refine ⟨hm, ?_, ?_⟩ <;> rw [hm] <;> simp

/-- Witness for C1's amended theorem at a concrete session. -/
theorem noPty_fatal_no_fallthrough_witness :
    middlewareMain
        { minProfile := .ansi, ptyOk := false, progSome := false,
          runErr := none } =
      [Event.setMinProfile .ansi, Event.fatalNoTerminal] ∧
    Event.invokeFactory ∉ middlewareMain
        { minProfile := .ansi, ptyOk := false, progSome := false,
          runErr := none } ∧
    Event.invokeNext ∉ middlewareMain
        { minProfile := .ansi, ptyOk := false, progSome := false,
          runErr := none } :=
  noPty_fatal_no_fallthrough _ rfl

/-- C3: when the program handler returns `nil` (in particular, when a
`Handler` returns a `nil` model, which makes `newDefaultProgramHandler`
return `nil`), the middleware spawns no relay goroutine, runs and kills no
program, and executes the next handler exactly once. -/
theorem nilProgram_falls_through (P : SessionParams)
    (h1 : P.ptyOk = true) (h2 : P.progSome = false) :
    middlewareMain P =
      [Event.setMinProfile P.minProfile, Event.invokeFactory,
        Event.invokeNext] ∧
    Event.spawnRelay ∉ middlewareMain P ∧
    (∀ er, Event.runReturn er ∉ middlewareMain P) ∧
    Event.kill ∉ middlewareMain P ∧
    (middlewareMain P).count Event.invokeNext = 1 ∧
    (∀ (S M O : Type) (mkOpts : S → List O) (bth : Handler S M O) (s : S),
        (bth s).1 = none → newDefaultProgramHandler mkOpts bth s = none) := by
  have hm : middlewareMain P =
      [Event.setMinProfile P.minProfile, Event.invokeFactory,
        Event.invokeNext] := by
    simp [middlewareMain, h1, h2]
  refine ⟨hm, ?_, ?_, ?_, ?_, ?_⟩
  · rw [hm]; simp
  · intro er; rw [hm]; simp
  · rw [hm]; simp
  · rw [hm]; simp [List.count_cons]
  · intro S M O mkOpts bth s h
    rcases hbs : bth s with ⟨m, opts⟩
    rw [hbs] at h
    simp only at h
    subst h
    simp [newDefaultProgramHandler, hbs]

/-- Witness for C3's theorem at a concrete session and handler. -/
theorem nilProgram_falls_through_witness :
    middlewareMain
        { minProfile := .ascii, ptyOk := true, progSome := false,
          runErr := none } =
      [Event.setMinProfile .ascii, Event.invokeFactory, Event.invokeNext] ∧
    Event.spawnRelay ∉ middlewareMain
        { minProfile := .ascii, ptyOk := true, progSome := false,
          runErr := none } ∧
    (∀ er, Event.runReturn er ∉ middlewareMain
        { minProfile := .ascii, ptyOk := true, progSome := false,
          runErr := none }) ∧
    Event.kill ∉ middlewareMain
        { minProfile := .ascii, ptyOk := true, progSome := false,
          runErr := none } ∧
    (middlewareMain
        { minProfile := .ascii, ptyOk := true, progSome := false,
          runErr := none }).count Event.invokeNext = 1 ∧
    (∀ (S M O : Type) (mkOpts : S → List O) (bth : Handler S M O) (s : S),
        (bth s).1 = none → newDefaultProgramHandler mkOpts bth s = none) :=
  nilProgram_falls_through _ rfl rfl

/-- C4: whenever `p.Run()` is invoked (PTY present, non-`nil` program),
`p.Kill()` is invoked exactly once and `cancel()` is invoked exactly once,
both strictly after `p.Run()` returned and regardless of the outcome of
`p.Run()`: the trace splits around the (unique) `runReturn` event, with no
`kill` or `cancel` before it and exactly one of each after it. -/
theorem kill_cancel_once_after_run (P : SessionParams)
    (h1 : P.ptyOk = true) (h2 : P.progSome = true) :
    ∃ pre post,
      middlewareMain P = pre ++ Event.runReturn P.runErr :: post ∧
      Event.kill ∉ pre ∧ Event.cancel ∉ pre ∧
      (∀ er, Event.runReturn er ∉ pre) ∧
      post.count Event.kill = 1 ∧ post.count Event.cancel = 1 ∧
      (middlewareMain P).count Event.kill = 1 ∧
      (middlewareMain P).count Event.cancel = 1 := by
  have hm := middlewareMain_run P h1 h2
  refine ⟨[Event.setMinProfile P.minProfile, Event.invokeFactory,
    Event.spawnRelay],
    (match P.runErr with
      | some e => [Event.logError e]
      | none => []) ++ [Event.kill, Event.cancel, Event.invokeNext],
    ?_, by simp, by simp, by intro er; simp, ?_, ?_, ?_, ?_⟩
  · rw [hm]; rfl
  · rcases P.runErr with _ | e <;> simp [List.count_cons]
  · rcases P.runErr with _ | e <;> simp [List.count_cons]
  · rw [hm]; rcases P.runErr with _ | e <;> simp [List.count_cons]
  · rw [hm]; rcases P.runErr with _ | e <;> simp [List.count_cons]

/-- Witness for C4's theorem at a concrete session. -/
theorem kill_cancel_once_after_run_witness :
    ∃ pre post,
      middlewareMain
          { minProfile := .ascii, ptyOk := true, progSome := true,
            runErr := none } =
        pre ++ Event.runReturn none :: post ∧
      Event.kill ∉ pre ∧ Event.cancel ∉ pre ∧
      (∀ er, Event.runReturn er ∉ pre) ∧
      post.count Event.kill = 1 ∧ post.count Event.cancel = 1 ∧
      (middlewareMain
          { minProfile := .ascii, ptyOk := true, progSome := true,
            runErr := none }).count Event.kill = 1 ∧
      (middlewareMain
          { minProfile := .ascii, ptyOk := true, progSome := true,
            runErr := none }).count Event.cancel = 1 :=
  kill_cancel_once_after_run _ rfl rfl

/-- C6: when `p.Run()` returns a non-`nil` error `e`, the error is
reported exactly once via the structured log (`logError e`), the full
teardown still runs (`kill` then `cancel`), the next handler still
executes, and no fatal/termination event is emitted: the middleware
completes its trace normally, so the error is not propagated. -/
theorem runError_logged_and_contained (P : SessionParams) (e : GoError)
    (h1 : P.ptyOk = true) (h2 : P.progSome = true)
    (h3 : P.runErr = some e) :
    middlewareMain P =
      [Event.setMinProfile P.minProfile, Event.invokeFactory,
        Event.spawnRelay, Event.runReturn (some e), Event.logError e,
        Event.kill, Event.cancel, Event.invokeNext] ∧
    (middlewareMain P).count (Event.logError e) = 1 ∧
    Event.fatalNoTerminal ∉ middlewareMain P := by
  have hm : middlewareMain P =
      [Event.setMinProfile P.minProfile, Event.invokeFactory,
        Event.spawnRelay, Event.runReturn (some e), Event.logError e,
        Event.kill, Event.cancel, Event.invokeNext] := by
    rw [middlewareMain_run P h1 h2, h3]
    rfl
  refine ⟨hm, ?_, ?_⟩
  · rw [hm]; simp [List.count_cons]
  · rw [hm]; simp

/-- Witness for C6's theorem at a concrete session and error. -/
theorem runError_logged_and_contained_witness :
    middlewareMain
        { minProfile := .trueColor, ptyOk := true, progSome := true,
          runErr := some "boom" } =
      [Event.setMinProfile .trueColor, Event.invokeFactory,
        Event.spawnRelay, Event.runReturn (some "boom"),
        Event.logError "boom", Event.kill, Event.cancel,
        Event.invokeNext] ∧
    (middlewareMain
        { minProfile := .trueColor, ptyOk := true, progSome := true,
          runErr := some "boom" }).count (Event.logError "boom") = 1 ∧
    Event.fatalNoTerminal ∉ middlewareMain
        { minProfile := .trueColor, ptyOk := true, progSome := true,
          runErr := some "boom" } :=
  runError_logged_and_contained _ "boom" rfl rfl rfl

/-- C9: for every session, the capability value is stored on the session
context as the very first operation of the middleware — hence before the
program handler is invoked and before `p.Run()` starts — and no later
operation of the middleware stores that context entry again. -/
theorem minProfile_stored_once_first (P : SessionParams) :
    ∃ rest,
      middlewareMain P = Event.setMinProfile P.minProfile :: rest ∧
      ∀ q, Event.setMinProfile q ∉ rest := by
  refine ⟨_, rfl, ?_⟩
  intro q
  obtain ⟨mp, pty, prog, err⟩ := P
  cases pty <;> cases prog <;> rcases err with _ | e <;> simp

/-! ## Machine lemmas -/

/-- `mainRest` at the initial program counter is the whole main trace. -/
theorem mainRest_start (P : SessionParams) :
    mainRest P .start = middlewareMain P := by
  simp [mainRest, middlewareMain, runTail]

/-- Per-step analysis of `quit`: a step emits `quit` iff it is the relay's
`ctx.Done()` branch; that branch requires cancellation, emits exactly
`[quit]` and retires the relay; without cancellation (or on the
`windowChanges` branch, even with the feed closed) the relay never
retires. -/
theorem stepFn_quit_iff {P : SessionParams} {c : Config} {a : SchedAction}
    {c' : Config} {evs : List Event}
    (h : stepFn P c a = some (c', evs)) :
    (Event.quit ∈ evs ↔ a = SchedAction.relayCancelBranch) ∧
    (a = SchedAction.relayCancelBranch →
      c.cancelled = true ∧ evs = [Event.quit] ∧
      c'.relayDone = true ∧ c.relayDone = false) ∧
    (c.cancelled = false → c'.relayDone = c.relayDone) ∧
    (a = SchedAction.relayRecv → c'.relayDone = c.relayDone) := by
  cases a <;> simp only [stepFn] at h <;>
    (repeat' split at h) <;> simp_all <;>
    (try obtain ⟨rfl, rfl⟩ := h) <;> simp_all

/-- Per-step accounting of `quit` events against the relay's retired flag. -/
theorem stepFn_quitCount {P : SessionParams} {c : Config} {a : SchedAction}
    {c' : Config} {evs : List Event}
    (h : stepFn P c a = some (c', evs)) :
    evs.count Event.quit + (if c.relayDone then 1 else 0) =
      (if c'.relayDone then 1 else 0) := by
  cases a <;> simp only [stepFn] at h <;>
    (repeat' split at h) <;> simp_all <;>
    (try obtain ⟨rfl, rfl⟩ := h) <;> simp_all

/-- Per-step channel accounting while the feed stays open: what a step
sends plus what remains pending equals what was pending plus what
arrived. -/
theorem stepFn_chanInv {P : SessionParams} {c : Config} {a : SchedAction}
    {c' : Config} {evs : List Event}
    (h : stepFn P c a = some (c', evs)) (hcl : c.closed = false)
    (hne : a ≠ SchedAction.closeFeed) :
    sentWindows evs ++ chanPairs c' = chanPairs c ++ arrivedWindows evs ∧
      c'.closed = false := by
  cases a <;> simp only [stepFn] at h <;>
    (repeat' split at h) <;> simp_all [sentWindows, arrivedWindows, chanPairs] <;>
    (try obtain ⟨rfl, rfl⟩ := h) <;>
    simp_all [sentWindows, arrivedWindows, chanPairs]

/-- Once the relay goroutine has retired, no step delivers a message or a
`quit`, and the relay stays retired. -/
theorem stepFn_afterDone {P : SessionParams} {c : Config} {a : SchedAction}
    {c' : Config} {evs : List Event}
    (h : stepFn P c a = some (c', evs)) (hd : c.relayDone = true) :
    sentWindows evs = [] ∧ Event.quit ∉ evs ∧ c'.relayDone = true := by
  cases a <;> simp only [stepFn] at h <;>
    (repeat' split at h) <;> simp_all [sentWindows] <;>
    (try obtain ⟨rfl, rfl⟩ := h) <;> simp_all [sentWindows]

/-- Per-step main-trace accounting: the main events a step emits are
exactly the main trace consumed between the two program counters. -/
theorem stepFn_mainRest {P : SessionParams} {c : Config} {a : SchedAction}
    {c' : Config} {evs : List Event}
    (h : stepFn P c a = some (c', evs)) :
    evs.filter isMainEvent ++ mainRest P c'.main = mainRest P c.main := by
  cases a <;> simp only [stepFn] at h <;>
    (repeat' split at h) <;> simp_all <;>
    (try obtain ⟨rfl, rfl⟩ := h) <;> simp_all [mainRest, runTail, isMainEvent]

/-- Run-level accounting of `quit` events. -/
theorem run_quitCount {P : SessionParams} {c c2 : Config}
    {acts : List SchedAction} {tr : List Event}
    (h : run P c acts = some (c2, tr)) :
    tr.count Event.quit + (if c.relayDone then 1 else 0) =
      (if c2.relayDone then 1 else 0) := by
  induction acts generalizing c tr with
  | nil =>
      simp only [run, Option.some_inj] at h
      obtain ⟨rfl, rfl⟩ := h
      simp
  | cons a as ih =>
      simp only [run] at h
      rcases hs : stepFn P c a with _ | ⟨c1, evs⟩
      · rw [hs] at h; simp at h
      · rw [hs] at h
        dsimp only at h
        rcases hr : run P c1 as with _ | ⟨c2', tr'⟩
        · rw [hr] at h; simp at h
        · rw [hr] at h
          simp only [Option.some_inj, Prod.mk.injEq] at h
          obtain ⟨rfl, rfl⟩ := h
          have ha := stepFn_quitCount hs
          have hb := ih hr
          simp only [List.count_append]
          omega

/-- Run-level channel accounting while the feed stays open: delivered
messages plus still-pending changes equal initially-pending changes plus
arrivals, in order. -/
theorem run_chanInv {P : SessionParams} {c c2 : Config}
    {acts : List SchedAction} {tr : List Event}
    (h : run P c acts = some (c2, tr))
    (hacts : SchedAction.closeFeed ∉ acts) (hcl : c.closed = false) :
    sentWindows tr ++ chanPairs c2 = chanPairs c ++ arrivedWindows tr ∧
      c2.closed = false := by
  induction acts generalizing c tr with
  | nil =>
      simp only [run, Option.some_inj] at h
      obtain ⟨rfl, rfl⟩ := h
      simpa [sentWindows, arrivedWindows] using hcl
  | cons a as ih =>
      simp only [List.mem_cons, not_or] at hacts
      simp only [run] at h
      rcases hs : stepFn P c a with _ | ⟨c1, evs⟩
      · rw [hs] at h; simp at h
      · rw [hs] at h
        dsimp only at h
        rcases hr : run P c1 as with _ | ⟨c2', tr'⟩
        · rw [hr] at h; simp at h
        · rw [hr] at h
          simp only [Option.some_inj, Prod.mk.injEq] at h
          obtain ⟨rfl, rfl⟩ := h
          obtain ⟨ha1, ha2⟩ := stepFn_chanInv hs hcl (fun hh => hacts.1 hh.symm)
          obtain ⟨hb1, hb2⟩ :=
            ih hr (fun hh => hacts.2 hh) ha2
          refine ⟨?_, hb2⟩
          rw [sentWindows, List.filterMap_append, ← sentWindows, ← sentWindows,
            arrivedWindows, List.filterMap_append, ← arrivedWindows,
            ← arrivedWindows, List.append_assoc, hb1, ← List.append_assoc,
            ha1, List.append_assoc]

/-- Run-level version of `stepFn_afterDone`: after the relay has retired,
a run delivers nothing and emits no further `quit`. -/
theorem run_afterDone {P : SessionParams} {c c2 : Config}
    {acts : List SchedAction} {tr : List Event}
    (h : run P c acts = some (c2, tr)) (hd : c.relayDone = true) :
    sentWindows tr = [] ∧ Event.quit ∉ tr ∧ c2.relayDone = true := by
  induction acts generalizing c tr with
  | nil =>
      simp only [run, Option.some_inj] at h
      obtain ⟨rfl, rfl⟩ := h
      simpa [sentWindows] using hd
  | cons a as ih =>
      simp only [run] at h
      rcases hs : stepFn P c a with _ | ⟨c1, evs⟩
      · rw [hs] at h; simp at h
      · rw [hs] at h
        dsimp only at h
        rcases hr : run P c1 as with _ | ⟨c2', tr'⟩
        · rw [hr] at h; simp at h
        · rw [hr] at h
          simp only [Option.some_inj, Prod.mk.injEq] at h
          obtain ⟨rfl, rfl⟩ := h
          obtain ⟨ha1, ha2, ha3⟩ := stepFn_afterDone hs hd
          obtain ⟨hb1, hb2, hb3⟩ := ih hr ha3
          refine ⟨?_, ?_, hb3⟩
          · rw [sentWindows, List.filterMap_append, ← sentWindows,
              ← sentWindows, ha1, hb1]
            rfl
          · simp only [List.mem_append, not_or]
            exact ⟨ha2, hb2⟩

/-- Run-level main-trace accounting. -/
theorem run_mainRest {P : SessionParams} {c c2 : Config}
    {acts : List SchedAction} {tr : List Event}
    (h : run P c acts = some (c2, tr)) :
    tr.filter isMainEvent ++ mainRest P c2.main = mainRest P c.main := by
  induction acts generalizing c tr with
  | nil =>
      simp only [run, Option.some_inj] at h
      obtain ⟨rfl, rfl⟩ := h
      simp
  | cons a as ih =>
      simp only [run] at h
      rcases hs : stepFn P c a with _ | ⟨c1, evs⟩
      · rw [hs] at h; simp at h
      · rw [hs] at h
        dsimp only at h
        rcases hr : run P c1 as with _ | ⟨c2', tr'⟩
        · rw [hr] at h; simp at h
        · rw [hr] at h
          simp only [Option.some_inj, Prod.mk.injEq] at h
          obtain ⟨rfl, rfl⟩ := h
          rw [List.filter_append, List.append_assoc, ih hr,
            stepFn_mainRest hs]

/-- Adequacy of `middlewareMain` with respect to the machine: on any
complete interleaving (the calling goroutine returned), the main events
of the machine trace are exactly `middlewareMain P`. -/
theorem run_main_projection {P : SessionParams} {c : Config}
    {acts : List SchedAction} {tr : List Event}
    (h : run P initConfig acts = some (c, tr))
    (hdone : c.main = MainPC.done) :
    tr.filter isMainEvent = middlewareMain P := by
  have hinv := run_mainRest h
  rw [hdone] at hinv
  simp only [mainRest] at hinv
  rw [List.append_nil] at hinv
  rw [hinv, ← mainRest_start]
  rfl

/-- C8: the relay loop terminates only via the cancellation signal — a
step emits `p.Quit()` iff it is the `ctx.Done()` branch, which requires
cancellation, emits exactly one `quit`, and returns; the `windowChanges`
branch (even with the feed closed) never terminates the loop, and no step
without cancellation does; over any complete schedule the relay emits
`quit` exactly once if it terminated and never otherwise. -/
theorem relay_terminates_only_on_cancellation :
    (∀ (P : SessionParams) (c : Config) (a : SchedAction) (c' : Config)
        (evs : List Event), stepFn P c a = some (c', evs) →
      (Event.quit ∈ evs ↔ a = SchedAction.relayCancelBranch) ∧
      (a = SchedAction.relayCancelBranch →
        c.cancelled = true ∧ evs = [Event.quit] ∧
        c'.relayDone = true ∧ c.relayDone = false) ∧
      (c.cancelled = false → c'.relayDone = c.relayDone) ∧
      (a = SchedAction.relayRecv → c'.relayDone = c.relayDone)) ∧
    (∀ (P : SessionParams) (acts : List SchedAction) (c : Config)
        (tr : List Event), run P initConfig acts = some (c, tr) →
      tr.count Event.quit = if c.relayDone then 1 else 0) := by
  constructor
  · intro P c a c' evs h
    exact stepFn_quit_iff h
  · intro P acts c tr h
    have hq := run_quitCount h
    simpa [initConfig] using hq

/-- Witness for C8's theorem: the relay's `ctx.Done()` branch at a
concrete cancelled configuration, and a concrete complete schedule with
exactly one `quit`. -/
theorem relay_terminates_only_on_cancellation_witness :
    ((Event.quit ∈ ([Event.quit] : List Event) ↔
        SchedAction.relayCancelBranch = SchedAction.relayCancelBranch) ∧
      (SchedAction.relayCancelBranch = SchedAction.relayCancelBranch →
        relayLiveConfig.cancelled = true ∧
        ([Event.quit] : List Event) = [Event.quit] ∧
        relayStoppedConfig.relayDone = true ∧
        relayLiveConfig.relayDone = false) ∧
      (relayLiveConfig.cancelled = false →
        relayStoppedConfig.relayDone = relayLiveConfig.relayDone) ∧
      (SchedAction.relayCancelBranch = SchedAction.relayRecv →
        relayStoppedConfig.relayDone = relayLiveConfig.relayDone)) ∧
    (lateSendTrace.count Event.quit =
      if lateSendFinal.relayDone then 1 else 0) :=
  ⟨relay_terminates_only_on_cancellation.1 demoParams relayLiveConfig
      .relayCancelBranch relayStoppedConfig [Event.quit] rfl,
    relay_terminates_only_on_cancellation.2 demoParams lateSendSchedule
      lateSendFinal lateSendTrace rfl⟩

/-- C5 counterexample: two legal interleavings refute the claim.  On
`lateSendSchedule` a window change arrives (before the session ends) after
`p.Run()` has returned, and the relay still delivers it — the `send` (at
position 5) follows the `runReturn` (at position 3).  On
`droppedEventSchedule` a window change arrives before the session ends but
the relay's `select` takes the `ctx.Done()` branch first, so of N = 1
events received, 0 messages are delivered. -/
theorem resize_exact_delivery_cex :
    (run demoParams initConfig lateSendSchedule =
        some (lateSendFinal, lateSendTrace) ∧
      lateSendTrace.indexOf (Event.runReturn none) = 3 ∧
      lateSendTrace.indexOf (Event.send ⟨80, 24⟩) = 5) ∧
    (run demoParams initConfig droppedEventSchedule =
        some (droppedEventFinal, droppedEventTrace) ∧
      arrivedWindows droppedEventTrace = [(81, 25)] ∧
      sentWindows droppedEventTrace = []) :=
  ⟨⟨rfl, rfl, rfl⟩, ⟨rfl, rfl, rfl⟩⟩

/-- C5 (amended): while the window-change feed stays open, the relay
delivers `WindowSizeMsg`s in the order the events were received, and the
delivered messages form a prefix of the received events — each received
event is delivered exactly once unless it is still pending when the relay
observes cancellation (the pending remainder is exactly the difference);
no message is delivered after the relay has terminated via cancellation,
though messages may still be delivered after `p.Run()` has returned,
until cancellation is observed. -/
theorem resize_relay_prefix_delivery :
    (∀ (P : SessionParams) (acts : List SchedAction) (c : Config)
        (tr : List Event), run P initConfig acts = some (c, tr) →
        SchedAction.closeFeed ∉ acts →
      sentWindows tr ++ chanPairs c = arrivedWindows tr ∧
      List.IsPrefix (sentWindows tr) (arrivedWindows tr)) ∧
    (∀ (P : SessionParams) (acts1 acts2 : List SchedAction)
        (c1 c2 : Config) (tr1 tr2 : List Event),
        run P initConfig acts1 = some (c1, tr1) → c1.relayDone = true →
        run P c1 acts2 = some (c2, tr2) →
      sentWindows tr2 = [] ∧ Event.quit ∉ tr2) := by
  constructor
  · intro P acts c tr h hacts
    obtain ⟨h1, _⟩ := run_chanInv h hacts rfl
    rw [show chanPairs initConfig = [] from rfl, List.nil_append] at h1
    exact ⟨h1, ⟨chanPairs c, h1⟩⟩
  · intro P acts1 acts2 c1 c2 tr1 tr2 h1 hd h2
    obtain ⟨ha, hb, _⟩ := run_afterDone h2 hd
    exact ⟨ha, hb⟩

/-- Witness for C5's amended theorem: in-order prefix delivery on the
concrete `lateSendSchedule`, and no delivery after the relay retired. -/
theorem resize_relay_prefix_delivery_witness :
    (sentWindows lateSendTrace ++ chanPairs lateSendFinal =
        arrivedWindows lateSendTrace ∧
      List.IsPrefix (sentWindows lateSendTrace)
        (arrivedWindows lateSendTrace)) ∧
    (sentWindows [Event.arrive ⟨9, 9⟩] = [] ∧
      Event.quit ∉ [Event.arrive ⟨9, 9⟩]) :=
  ⟨resize_relay_prefix_delivery.1 demoParams lateSendSchedule lateSendFinal
      lateSendTrace rfl (by decide),
    resize_relay_prefix_delivery.2 demoParams lateSendSchedule
      [.arrive ⟨9, 9⟩] lateSendFinal lateArriveFinal lateSendTrace
      [Event.arrive ⟨9, 9⟩] rfl rfl rfl⟩
